import Mathlib

/-!
Verification of `generate_rustc_flags` (src/src/lib.rs) against its
natural-language specification.

The Rust function synthesizes the rustc invocation for the compilation unit
owning a given source file.  We shallowly embed the function over an explicit
`ProjectState` that captures everything the function reads from the outside
world (the process environment, the `rustc --print sysroot` query, the
canonicalized manifest path, and the cargo build context `cx`/`bcx`).

Paths are modelled as lists of components (`List String`); `Path::parent`
drops the last component, and `Path::ancestors` yields the path and then the
parents down to the empty path, exactly as in `std::path`.

Cargo's interned `Unit` values are modelled by natural-number indices into the
context.  Cargo's unit graph is a finite DAG (a unit never depends on itself,
directly or transitively), so without loss of generality units are numbered in
topological order: every dependency reference points to a strictly smaller
index.  This is the `depsWf` field of `Ctx`; it is what makes the unguarded
recursion of `collect_units` terminate.
-/

namespace GenRustcFlags

/-- Semver version of a package (`pkg.version()`), with the components the
code reads (`major`, `minor`, `patch`). -/
structure Version where
  major : Nat
  minor : Nat
  patch : Nat
deriving DecidableEq, Repr

/-- Rendering of `pkg.version().to_string()`. -/
def Version.render (v : Version) : String :=
  toString v.major ++ "." ++ toString v.minor ++ "." ++ toString v.patch

/-- The fields of `cargo::core::Target` that `generate_rustc_flags` reads:
`src_path().path()`, `crate_name()`, `rustc_crate_types()` (also used via
`kind().rustc_crate_types()` - in cargo both return the same list), and
`edition()`.  Crate types are rendered strings ("lib", "bin", ...). -/
structure Target where
  srcPath : List String
  crateName : String
  crateTypes : List String
  edition : String
deriving DecidableEq, Repr

/-- The fields of `cargo::core::Package` the code reads. -/
structure Package where
  name : String
  version : Version
deriving DecidableEq, Repr

/-- A cargo compilation unit (`cargo::core::compiler::Unit`): the fields
`target`, `features`, `kind` (compile kind, opaque here), `pkg`. -/
structure CUnit where
  target : Target
  features : List String
  kind : Nat
  pkg : Package
deriving DecidableEq, Repr

/-- The recorded output of a build script
(`cx.build_script_outputs.get(meta)`): the emitted environment pairs, in
order.  (The code reads only the `env` field.) -/
structure BuildScriptOutput where
  env : List (String × String)
deriving DecidableEq, Repr

/-- The cargo build context (`bcx` + `cx`) as `generate_rustc_flags` consumes
it.  Units are indices; `depsWf` encodes that the unit graph is a DAG,
presented in topological numbering (dependencies have smaller indices).

* `deps i` — `cx.unit_deps(unit i)`, the dependency units of unit `i`;
* `unitOf i` — the data of unit `i`;
* `roots` — `bcx.roots`;
* `buildScriptMeta i` — `cx.find_build_script_metadata(unit i)`;
* `buildScriptUnit i` — `cx.find_build_script_unit(unit i)`;
* `buildScriptExecOk b` — whether `compile` + `queue.execute` for build unit
  `b` succeed;
* `buildScriptOutputs m` — `cx.build_script_outputs.get(m)` after execution;
* `buildScriptOutDir b` — `cx.files().build_script_out_dir(b)`;
* `layoutDepsDir k` — `cx.files().layout(k).deps()`;
* `externArgs i` — `extern_args(&cx, unit i, ..)`, `none` when it errors. -/
structure Ctx where
  deps : Nat → List Nat
  depsWf : ∀ i j, j ∈ deps i → j < i
  unitOf : Nat → CUnit
  roots : List Nat
  buildScriptMeta : Nat → Option Nat
  buildScriptUnit : Nat → Option Nat
  buildScriptExecOk : Nat → Bool
  buildScriptOutputs : Nat → Option BuildScriptOutput
  buildScriptOutDir : Nat → List String
  layoutDepsDir : Nat → List String
  externArgs : Nat → Option (List String)

/-- Everything `generate_rustc_flags` reads from its surroundings:

* `processEnv` — the process environment (`env::var_os`), read only at key
  "RUSTC";
* `sysrootOf b` — the stdout of running binary `b` with
  `--print sysroot`;
* `manifestDir` — the directory containing the canonicalized
  `./Cargo.toml` (so the manifest path is `manifestDir ++ ["Cargo.toml"]`,
  and `manifest_path.parent().unwrap()` is `manifestDir`);
* `ctx` — the build context obtained from `create_bcx` / `Context::new`. -/
structure ProjectState where
  processEnv : String → Option String
  sysrootOf : String → String
  manifestDir : List String
  ctx : Ctx

/-- The error values `generate_rustc_flags` can return (via `bail!`,
`.context(..)?` and `?`).  `unitNotFound` carries the displayed path, as in
`bail!("Could not find unit for path {}", ..)`; `noLibTarget` is the
`.context("No lib target w/ multiple targets")` error (the spec's
`AmbiguousUnit`); `buildScriptFailed` covers a failing
`compile`/`queue.execute`; `externFailed` a failing `extern_args`. -/
inductive GenError where
  | unitNotFound (path : String)
  | noLibTarget
  | buildScriptFailed
  | externFailed
deriving DecidableEq, Repr

/-- Outcome of a run: `ok v`, a returned error, or a Rust panic
(`unwrap()` on `None`, out-of-bounds index). -/
inductive Step (α : Type) where
  | ok (v : α)
  | error (e : GenError)
  | panicked (msg : String)
deriving DecidableEq

/-- A run result: the returned flag list paired with an environment view
(for `synthesize`, the `env` HashMap the code builds; for
`genRustcFlags`, the caller-visible process environment after the call). -/
abbrev RunResult := Step (List String × (String → Option String))

/-- `true` exactly on the panic outcome. -/
def Step.isPanic : Step α → Bool
  | .panicked _ => true
  | _ => false

/-- `true` exactly on the `ok` outcome. -/
def Step.isOk : Step α → Bool
  | .ok _ => true
  | _ => false

/-- The flag list of an `ok` result. -/
def Step.getFlags : RunResult → Option (List String)
  | .ok (fl, _) => some fl
  | _ => none

/-- The environment view of an `ok` result, at one key. -/
def Step.envAt : RunResult → String → Option String
  | .ok (_, m), k => m k
  | _, _ => none

/-- `Path::display` of a component-list path. -/
def renderPath (p : List String) : String :=
  String.intercalate "/" p

/-- Rust's `str::trim` on the character list: drop leading and trailing
whitespace. -/
def trimChars (l : List Char) : List Char :=
  ((l.dropWhile Char.isWhitespace).reverse.dropWhile Char.isWhitespace).reverse

/-- Rust's `str::trim` (the `sysroot.trim()` call of lib.rs:48). -/
def strTrim (s : String) : String :=
  String.mk (trimChars s.data)

/-- `Path::parent`: drop the last component; `none` on the empty path. -/
def parentDir : List String → Option (List String)
  | [] => none
  | x :: xs => some (x :: xs).dropLast

/-- `Path::ancestors`, structurally (the extra `Nat` is the length of the
path, which bounds the number of `parent` steps; `dropLast` shortens the
path by exactly one, so the bound is never hit early). -/
def ancestorsAux : Nat → List String → List (List String)
  | _, [] => [[]]
  | 0, p => [p]
  | n + 1, x :: xs => (x :: xs) :: ancestorsAux n (x :: xs).dropLast

/-- `Path::ancestors`: the path itself, then its parents, down to the empty
path. -/
def ancestors (p : List String) : List (List String) :=
  ancestorsAux p.length p

/-- The candidate filter of the target-unit locator (lib.rs:87-93): the unit
is a candidate when its source root's parent directory is among the
ancestors of the requested path. -/
def isCandidate (cx : Ctx) (sourcePath : List String) (i : Nat) : Bool :=
  match parentDir (cx.unitOf i).target.srcPath with
  | some srcDir => (ancestors sourcePath).any (fun a => a = srcDir)
  | none => false

/-- `collect_units` (lib.rs:23-30): unguarded post-order recursion over the
dependency edges; the unit itself follows the collected dependencies.
Termination is by the DAG invariant `depsWf`. -/
def collectUnits (cx : Ctx) (i : Nat) : List Nat :=
  ((cx.deps i).attach.map (fun j => collectUnits cx j.1)).flatten ++ [i]
termination_by i
decreasing_by exact cx.depsWf i j.1 j.2

/-- `all_units` (lib.rs:77-82): collect from every root and flatten. -/
def allUnits (cx : Ctx) : List Nat :=
  (cx.roots.map (collectUnits cx)).flatten

/-- The `matches` list of the locator (lib.rs:85-94). -/
def candidatesOf (cx : Ctx) (sourcePath : List String) : List Nat :=
  (allUnits cx).filter (isCandidate cx sourcePath)

/-- Whether unit `i`'s target has the `lib` crate type
(`unit.target.rustc_crate_types().iter().any(|ty| *ty == CrateType::Lib)`). -/
def isLibIdx (cx : Ctx) (i : Nat) : Bool :=
  (cx.unitOf i).target.crateTypes.any (fun ty => ty = "lib")

/-- The target-unit locator (lib.rs:84-110): zero candidates is an error,
one candidate is returned, and with several candidates the first one with a
`lib` crate type is returned (error when none has it). -/
def findTargetUnit (cx : Ctx) (sourcePath : List String) : Step Nat :=
  match candidatesOf cx sourcePath with
  | [] => .error (.unitNotFound (renderPath sourcePath))
  | [u] => .ok u
  | ms => match ms.find? (fun i => isLibIdx cx i) with
          | some u => .ok u
          | none => .error .noLibTarget

/-- One `HashMap::insert` on the environment map. -/
def insertEnv (m : String → Option String) (kv : String × String) :
    String → Option String :=
  fun k => if k = kv.1 then some kv.2 else m k

/-- Building a `HashMap` from pairs (`collect`, and `extend`): later pairs
win on key conflicts, as in `HashMap`. -/
def envOfPairs (l : List (String × String)) : String → Option String :=
  l.foldl insertEnv (fun _ => none)

/-- The base environment pairs (lib.rs:146-156), in source order. -/
def basePairs (s : ProjectState) (u : CUnit) : List (String × String) :=
  [("CARGO_PKG_VERSION", u.pkg.version.render),
   ("CARGO_PKG_NAME", u.pkg.name),
   ("CARGO_MANIFEST_DIR", renderPath s.manifestDir),
   ("CARGO_PKG_VERSION_MAJOR", toString u.pkg.version.major),
   ("CARGO_PKG_VERSION_MINOR", toString u.pkg.version.minor),
   ("CARGO_PKG_VERSION_PATCH", toString u.pkg.version.patch)]

/-- The conditional-compilation pair for one enabled feature
(lib.rs:135-139). -/
def featurePair (f : String) : List String :=
  ["--cfg", "feature=\"" ++ f ++ "\""]

/-- The build-script section (lib.rs:161-177): when the target unit has
build-script metadata, look up the build-script unit (`.unwrap()` - a panic
when absent), run it (an error when compilation/execution fails), insert
`OUT_DIR`, then look up the recorded output for the metadata key
(`.unwrap()` - a panic when absent) and extend the map with its emitted
environment pairs. -/
def buildScriptEnv (cx : Ctx) (ti : Nat) (env0 : String → Option String) :
    Step (String → Option String) :=
  match cx.buildScriptMeta ti with
  | none => .ok env0
  | some meta =>
    match cx.buildScriptUnit ti with
    | none => .panicked "find_build_script_unit(..).unwrap() on None"
    | some bu =>
      if cx.buildScriptExecOk bu then
        let env1 := insertEnv env0 ("OUT_DIR", renderPath (cx.buildScriptOutDir bu))
        match cx.buildScriptOutputs meta with
        | none => .panicked "build_script_outputs.get(target_meta).unwrap() on None"
        | some out => .ok (out.env.foldl insertEnv env1)
      else .error .buildScriptFailed

/-- The body of `generate_rustc_flags` up to (and excluding) the
`env::set_var` loop: the `ok` value is the returned flag list together with
the `env` HashMap the code has built (lib.rs:32-177, 183-189). -/
def synthesize (s : ProjectState) (sourcePath : List String) : RunResult :=
  let cx := s.ctx
  let rustc := (s.processEnv "RUSTC").getD "rustc"
  let sysroot := strTrim (s.sysrootOf rustc)
  match findTargetUnit cx sourcePath with
  | .error e => .error e
  | .panicked msg => .panicked msg
  | .ok ti =>
    let u := cx.unitOf ti
    match u.target.crateTypes with
    | [] => .panicked "kind().rustc_crate_types()[0] out of bounds"
    | ty :: _ =>
      let unitFlags : List String :=
        ["rustc",
         "--crate-name", u.target.crateName,
         "--crate-type", ty,
         "--sysroot", sysroot,
         renderPath u.target.srcPath,
         "--edition=" ++ u.target.edition,
         "-L", renderPath (cx.layoutDepsDir u.kind),
         "--emit=dep-info,metadata"]
      let featureFlags := (u.features.map featurePair).flatten
      match cx.externArgs ti with
      | none => .error .externFailed
      | some externFlags =>
        match buildScriptEnv cx ti (envOfPairs (basePairs s u)) with
        | .error e => .error e
        | .panicked msg => .panicked msg
        | .ok envMap =>
          .ok (unitFlags ++ featureFlags ++ externFlags, envMap)

/-- Overriding one environment by another (the net effect of the
`env::set_var` loop: every key bound in `m` is set, other keys keep their
previous binding). -/
def overrideEnv (m base : String → Option String) : String → Option String :=
  fun k => match m k with
           | some v => some v
           | none => base k

/-- The whole of `generate_rustc_flags` (lib.rs:32-190) as observed by the
caller: the returned value is only the flag list; the environment component
of the `ok` result here is the caller's process environment AFTER the call,
i.e. after the `for (k, v) in env { env::set_var(k, v) }` loop
(lib.rs:179-181). -/
def genRustcFlags (s : ProjectState) (sourcePath : List String) : RunResult :=
  match synthesize s sourcePath with
  | .ok (flags, envMap) => .ok (flags, overrideEnv envMap s.processEnv)
  | .error e => .error e
  | .panicked msg => .panicked msg

/-- Reachability along dependency edges (`k` is `i` itself or a transitive
dependency of `i`). -/
inductive Reaches (cx : Ctx) : Nat → Nat → Prop where
  | refl (i : Nat) : Reaches cx i i
  | step (i j k : Nat) : j ∈ cx.deps i → Reaches cx j k → Reaches cx i k

/-- A produced unit order is dependency-closed: wherever a unit occurs, each
of its dependencies occurs strictly earlier. -/
def DepsBefore (deps : Nat → List Nat) (l : List Nat) : Prop :=
  ∀ l1 u l2, l = l1 ++ u :: l2 → ∀ d ∈ deps u, d ∈ l1

/-- The last binding of a key in an ordered pair list (later pairs shadow
earlier ones, as repeated `HashMap::insert` does). -/
def lookupLast : List (String × String) → String → Option String
  | [], _ => none
  | kv :: rest, k =>
    match lookupLast rest k with
    | some v => some v
    | none => if k = kv.1 then some kv.2 else none

/-! ### Concrete instances used by witnesses and counterexamples

A small workspace `demo`: unit 0 is the library target, unit 1 a binary
target depending on it, both with source roots under `r/src`.  Variants add
a build script or extra library units. -/

/-- The library unit of the `demo` package (feature `extra` enabled). -/
def demoLibUnit : CUnit :=
  { target := { srcPath := ["r", "src", "lib.rs"], crateName := "demo",
                crateTypes := ["lib"], edition := "2018" }
    features := ["extra"]
    kind := 0
    pkg := { name := "demo", version := { major := 1, minor := 2, patch := 3 } } }

/-- The binary unit of the `demo` package. -/
def demoBinUnit : CUnit :=
  { target := { srcPath := ["r", "src", "main.rs"], crateName := "demo",
                crateTypes := ["bin"], edition := "2018" }
    features := ["extra"]
    kind := 0
    pkg := demoLibUnit.pkg }

/-- Context: library (unit 0) + binary (unit 1, depends on the library),
one root — the binary — so the library is collected through the dependency
edge.  No build scripts. -/
def demoCtx : Ctx where
  deps := fun i => if i = 1 then [0] else []
  depsWf := by
    intro i j h
    by_cases hi : i = 1
    · subst hi; simp at h; omega
    · simp [hi] at h
  unitOf := fun i => if i = 0 then demoLibUnit else demoBinUnit
  roots := [1]
  buildScriptMeta := fun _ => none
  buildScriptUnit := fun _ => none
  buildScriptExecOk := fun _ => true
  buildScriptOutputs := fun _ => none
  buildScriptOutDir := fun _ => []
  layoutDepsDir := fun _ => ["r", "target", "debug", "deps"]
  externArgs := fun _ => some []

/-- The project state around `demoCtx`: empty process environment, a fixed
sysroot answer, manifest at `r/Cargo.toml`. -/
def demoState : ProjectState where
  processEnv := fun _ => none
  sysrootOf := fun _ => "/sysroot"
  manifestDir := ["r"]
  ctx := demoCtx

/-- The requested path used with the demo states: the library source root
itself. -/
def demoPath : List String := ["r", "src", "lib.rs"]

/-- Context with a single library unit and no dependencies. -/
def soloCtx : Ctx where
  deps := fun _ => []
  depsWf := by intro i j h; simp at h
  unitOf := fun _ => demoLibUnit
  roots := [0]
  buildScriptMeta := fun _ => none
  buildScriptUnit := fun _ => none
  buildScriptExecOk := fun _ => true
  buildScriptOutputs := fun _ => none
  buildScriptOutDir := fun _ => []
  layoutDepsDir := fun _ => ["r", "target", "debug", "deps"]
  externArgs := fun _ => some []

/-- Context with two library units sharing a source directory (for the
several-library tie-break): units 0 and 1 both have `lib` targets under
`r/src`, both are roots, no dependency edges. -/
def twoLibCtx : Ctx where
  deps := fun _ => []
  depsWf := by intro i j h; simp at h
  unitOf := fun _ => demoLibUnit
  roots := [0, 1]
  buildScriptMeta := fun _ => none
  buildScriptUnit := fun _ => none
  buildScriptExecOk := fun _ => true
  buildScriptOutputs := fun _ => none
  buildScriptOutDir := fun _ => []
  layoutDepsDir := fun _ => ["r", "target", "debug", "deps"]
  externArgs := fun _ => some []

/-- A diamond-shaped dependency graph: unit 3 depends on 1 and 2, both of
which depend on 0, so unit 0 is reachable along two paths.  Root: unit 3. -/
def diamondCtx : Ctx where
  deps := fun i => if i = 3 then [1, 2] else if i = 1 then [0] else if i = 2 then [0] else []
  depsWf := by
    intro i j h
    simp only at h
    split_ifs at h <;> simp_all
    all_goals omega
  unitOf := fun _ => demoLibUnit
  roots := [3]
  buildScriptMeta := fun _ => none
  buildScriptUnit := fun _ => none
  buildScriptExecOk := fun _ => true
  buildScriptOutputs := fun _ => none
  buildScriptOutDir := fun _ => []
  layoutDepsDir := fun _ => ["r", "target", "debug", "deps"]
  externArgs := fun _ => some []

/-- A build-script output used by the concrete build-script states: one
fresh key and one key shadowing a base entry. -/
def bsOutput : BuildScriptOutput :=
  { env := [("FOO", "bar"), ("CARGO_PKG_NAME", "shadow")] }

/-- Like `soloCtx`, but the library unit has a build script (metadata key 0,
build unit 7) whose recorded output is `bsOutput`. -/
def bsCtx : Ctx where
  deps := fun _ => []
  depsWf := by intro i j h; simp at h
  unitOf := fun _ => demoLibUnit
  roots := [0]
  buildScriptMeta := fun i => if i = 0 then some 0 else none
  buildScriptUnit := fun i => if i = 0 then some 7 else none
  buildScriptExecOk := fun _ => true
  buildScriptOutputs := fun m => if m = 0 then some bsOutput else none
  buildScriptOutDir := fun _ => ["r", "target", "debug", "build", "demo", "out"]
  layoutDepsDir := fun _ => ["r", "target", "debug", "deps"]
  externArgs := fun _ => some []

/-- Like `bsCtx`, but no output is recorded for the build script's metadata
key (the situation of the `build_script_outputs.get(..).unwrap()` call). -/
def bsNoOutputCtx : Ctx where
  deps := fun _ => []
  depsWf := by intro i j h; simp at h
  unitOf := fun _ => demoLibUnit
  roots := [0]
  buildScriptMeta := fun i => if i = 0 then some 0 else none
  buildScriptUnit := fun i => if i = 0 then some 7 else none
  buildScriptExecOk := fun _ => true
  buildScriptOutputs := fun _ => none
  buildScriptOutDir := fun _ => ["r", "target", "debug", "build", "demo", "out"]
  layoutDepsDir := fun _ => ["r", "target", "debug", "deps"]
  externArgs := fun _ => some []

/-- State around `soloCtx`. -/
def soloState : ProjectState where
  processEnv := fun _ => none
  sysrootOf := fun _ => "/sysroot"
  manifestDir := ["r"]
  ctx := soloCtx

/-- State around `bsCtx`. -/
def bsState : ProjectState where
  processEnv := fun _ => none
  sysrootOf := fun _ => "/sysroot"
  manifestDir := ["r"]
  ctx := bsCtx

/-- State around `bsNoOutputCtx`. -/
def bsNoOutputState : ProjectState where
  processEnv := fun _ => none
  sysrootOf := fun _ => "/sysroot"
  manifestDir := ["r"]
  ctx := bsNoOutputCtx

/-- The flag list `generate_rustc_flags` produces on `demoState` /
`demoPath` (no dependencies, so no extern flags). -/
def demoFlags : List String :=
  ["rustc", "--crate-name", "demo", "--crate-type", "lib",
   "--sysroot", "/sysroot", "r/src/lib.rs", "--edition=2018",
   "-L", "r/target/debug/deps", "--emit=dep-info,metadata",
   "--cfg", "feature=\"extra\""]

/-- The environment map `generate_rustc_flags` assembles on `demoState` /
`demoPath` (no build script, so just the base pairs). -/
def demoM : String → Option String :=
  envOfPairs (basePairs demoState demoLibUnit)

/-! ### Helper lemmas -/

/-- `collect_units`, with the proof-carrying `attach` removed: the
dependency lists are collected in order, the unit itself comes last. -/
theorem collectUnits_eq (cx : Ctx) (i : Nat) :
    collectUnits cx i = ((cx.deps i).map (collectUnits cx)).flatten ++ [i] := by
  rw [collectUnits]
  congr 2
  exact List.attach_map_val _ _

theorem self_mem_collectUnits (cx : Ctx) (i : Nat) : i ∈ collectUnits cx i := by
  rw [collectUnits_eq]; simp

/-- Completeness of `collect_units`: every unit reachable from `i` occurs in
the collected list. -/
theorem mem_collectUnits_of_reaches {cx : Ctx} {i k : Nat} (h : Reaches cx i k) :
    k ∈ collectUnits cx i := by
  induction h with
  | refl a => exact self_mem_collectUnits cx a
  | step a b c hj _ ih =>
    rw [collectUnits_eq]
    exact List.mem_append.2 (Or.inl
      (List.mem_flatten_of_mem (List.mem_map_of_mem _ hj) ih))

/-- Soundness of `collect_units`: everything it collects is reachable. -/
theorem reaches_of_mem_collectUnits {cx : Ctx} :
    ∀ {i k : Nat}, k ∈ collectUnits cx i → Reaches cx i k := by
  intro i
  induction i using Nat.strong_induction_on with
  | _ i ih =>
    intro k hk
    rw [collectUnits_eq] at hk
    rcases List.mem_append.1 hk with h | h
    · rcases List.mem_flatten.1 h with ⟨l, hl, hkl⟩
      rcases List.mem_map.1 hl with ⟨j, hj, rfl⟩
      exact Reaches.step i j k hj (ih j (cx.depsWf i j hj) hkl)
    · simp only [List.mem_singleton] at h
      rw [h]
      exact Reaches.refl i

theorem depsBefore_append {deps : Nat → List Nat} {A B : List Nat}
    (hA : DepsBefore deps A) (hB : DepsBefore deps B) :
    DepsBefore deps (A ++ B) := by
  intro l1 u l2 heq d hd
  rcases List.append_eq_append_iff.1 heq with ⟨a', h1, h2⟩ | ⟨c', h1, h2⟩
  · -- `u :: l2` lies inside `B`:  l1 = A ++ a',  B = a' ++ u :: l2
    subst h1
    exact List.mem_append.2 (Or.inr (hB a' u l2 h2 d hd))
  · -- `A = l1 ++ c'` and `u :: l2 = c' ++ B`
    rcases c' with _ | ⟨u', c''⟩
    · -- A = l1, u is the head of B; heads of dependency-closed lists have
      -- no dependencies, so this case is vacuous
      exact absurd (hB [] u l2 (by simpa using h2.symm) d hd) (List.not_mem_nil d)
    · rw [List.cons_append] at h2
      injection h2 with h2a h2b
      subst h2a
      exact hA l1 u c'' h1 d hd

theorem depsBefore_concat {deps : Nat → List Nat} {A : List Nat} {x : Nat}
    (hA : DepsBefore deps A) (hx : ∀ d ∈ deps x, d ∈ A) :
    DepsBefore deps (A ++ [x]) := by
  intro l1 u l2 heq d hd
  rcases List.eq_nil_or_concat l2 with rfl | ⟨l2', b, rfl⟩
  · obtain ⟨rfl, hux⟩ := List.append_inj' heq (by rfl)
    obtain rfl : x = u := by injection hux
    exact hx d hd
  · rw [List.concat_eq_append, ← List.cons_append, ← List.append_assoc] at heq
    obtain ⟨hA', hxb⟩ := List.append_inj' heq (by rfl)
    exact hA l1 u l2' hA' d hd

theorem depsBefore_flatten {deps : Nat → List Nat} :
    ∀ {L : List (List Nat)}, (∀ l ∈ L, DepsBefore deps l) →
      DepsBefore deps L.flatten := by
  intro L
  induction L with
  | nil =>
    intro _ l1 u l2 heq
    exfalso
    have := congrArg List.length heq
    simp at this
    omega
  | cons A L' ih =>
    intro h
    rw [List.flatten_cons]
    exact depsBefore_append (h A (List.mem_cons_self A L'))
      (ih fun l hl => h l (List.mem_cons_of_mem _ hl))

/-- Order property of `collect_units`: wherever a unit occurs in the
collected list, all its dependencies occur strictly before it. -/
theorem depsBefore_collectUnits (cx : Ctx) :
    ∀ i, DepsBefore cx.deps (collectUnits cx i) := by
  intro i
  induction i using Nat.strong_induction_on with
  | _ i ih =>
    rw [collectUnits_eq]
    apply depsBefore_concat
    · apply depsBefore_flatten
      intro l hl
      rcases List.mem_map.1 hl with ⟨j, hj, rfl⟩
      exact ih j (cx.depsWf i j hj)
    · intro d hd
      exact List.mem_flatten_of_mem (List.mem_map_of_mem _ hd)
        (self_mem_collectUnits cx d)

/-- Recursion equation of `ancestors` on a non-empty path: itself, then the
ancestors of its parent directory. -/
theorem ancestors_cons (x : String) (xs : List String) :
    ancestors (x :: xs) = (x :: xs) :: ancestors ((x :: xs).dropLast) := by
  have h : ((x :: xs).dropLast).length = xs.length := by
    simp [List.length_dropLast]
  simp only [ancestors, List.length_cons, ancestorsAux, h]

/-- Splitting an "is an ancestor" fact on a non-empty path: the ancestor is
the path itself, or an ancestor of its parent. -/
theorem append_split_dropLast {α : Type} {l d : List α} (hl : l ≠ []) :
    (∃ t, l = d ++ t) ↔ d = l ∨ ∃ t, l.dropLast = d ++ t := by
  constructor
  · rintro ⟨t, rfl⟩
    rcases List.eq_nil_or_concat t with rfl | ⟨t', b, rfl⟩
    · exact Or.inl (by simp)
    · refine Or.inr ⟨t', ?_⟩
      rw [List.concat_eq_append, ← List.append_assoc, List.dropLast_concat]
  · rintro (rfl | ⟨t, ht⟩)
    · exact ⟨[], by simp⟩
    · refine ⟨t ++ [l.getLast hl], ?_⟩
      rw [← List.append_assoc, ← ht, List.dropLast_concat_getLast hl]

/-- Membership in `Path::ancestors` is exactly the "ancestor (inclusive of
equality)" relation: some suffix extends the ancestor to the path. -/
theorem mem_ancestors {p d : List String} :
    d ∈ ancestors p ↔ ∃ t, p = d ++ t := by
  suffices h : ∀ n (p : List String), p.length ≤ n →
      ∀ d, (d ∈ ancestors p ↔ ∃ t, p = d ++ t) from h p.length p le_rfl d
  intro n
  induction n with
  | zero =>
    intro p hp d
    obtain rfl : p = [] := List.eq_nil_of_length_eq_zero (Nat.le_zero.1 hp)
    simp [ancestors, ancestorsAux, eq_comm]
  | succ n ih =>
    intro p hp d
    match p with
    | [] => simp [ancestors, ancestorsAux, eq_comm]
    | x :: xs =>
      rw [ancestors_cons, List.mem_cons,
        ih ((x :: xs).dropLast)
          (by
            simp only [List.length_dropLast, List.length_cons]
            simp only [List.length_cons] at hp
            omega) d,
        append_split_dropLast (List.cons_ne_nil x xs), eq_comm]

/-- The candidate test of the locator, characterized: the parent directory
of the unit's source root exists and some suffix extends it to the
requested path. -/
theorem isCandidate_iff (cx : Ctx) (p : List String) (i : Nat) :
    isCandidate cx p i = true ↔
      ∃ d t, parentDir (cx.unitOf i).target.srcPath = some d ∧ p = d ++ t := by
  unfold isCandidate
  cases h : parentDir (cx.unitOf i).target.srcPath with
  | none => simp
  | some srcDir =>
    simp only [List.any_eq_true, decide_eq_true_eq, Option.some.injEq]
    constructor
    · rintro ⟨a, ha, rfl⟩
      obtain ⟨t, ht⟩ := mem_ancestors.1 ha
      exact ⟨_, t, rfl, ht⟩
    · rintro ⟨d2, t, hEq, hp⟩
      subst hp
      cases hEq
      exact ⟨srcDir, mem_ancestors.2 ⟨t, rfl⟩, rfl⟩

theorem insertEnv_self (m : String → Option String) (k v : String) :
    insertEnv m (k, v) k = some v := by
  simp [insertEnv]

theorem insertEnv_ne (m : String → Option String) (a b k : String) (h : k ≠ a) :
    insertEnv m (a, b) k = m k := by
  simp [insertEnv, h]

/-- Left fold of `HashMap::insert` over a pair list, characterized: the last
binding in the list wins, and the starting map answers for unbound keys. -/
theorem foldl_insertEnv_eq (l : List (String × String))
    (m : String → Option String) (k : String) :
    (l.foldl insertEnv m) k = (lookupLast l k).or (m k) := by
  induction l generalizing m with
  | nil => simp [lookupLast]
  | cons kv rest ih =>
    simp only [List.foldl_cons, lookupLast]
    rw [ih]
    cases h : lookupLast rest k with
    | some v => simp
    | none =>
      by_cases hk : k = kv.1
      · subst hk
        simp [insertEnv]
      · simp [insertEnv, hk]

/-- Lookup in a `HashMap` collected from a pair list. -/
theorem envOfPairs_eq (l : List (String × String)) (k : String) :
    envOfPairs l k = lookupLast l k := by
  rw [envOfPairs, foldl_insertEnv_eq]
  cases lookupLast l k <;> rfl

/-- `synthesize` reads, of the project state, only the `RUSTC` binding of
the process environment, the sysroot query, the manifest directory and the
build context: states agreeing there synthesize identical results. -/
theorem synthesize_frame (s1 s2 : ProjectState) (p : List String)
    (hE : s1.processEnv "RUSTC" = s2.processEnv "RUSTC")
    (hS : s1.sysrootOf = s2.sysrootOf)
    (hM : s1.manifestDir = s2.manifestDir)
    (hC : s1.ctx = s2.ctx) :
    synthesize s1 p = synthesize s2 p := by
  obtain ⟨e1, sy1, m1, c1⟩ := s1
  obtain ⟨e2, sy2, m2, c2⟩ := s2
  simp only at hE hS hM hC
  subst hS hM hC
  simp only [synthesize, basePairs] at *
  rw [hE]

/-- A list of length at least two starts with two elements. -/
theorem exists_cons_cons_of_two_le {l : List Nat} (h : 2 ≤ l.length) :
    ∃ a b rest, l = a :: b :: rest := by
  match l with
  | [] => simp at h
  | [a] => simp at h
  | a :: b :: rest => exact ⟨a, b, rest, rfl⟩

/-- With at least two candidates, the locator reduces to `find?` over the
`lib`-crate-type test. -/
theorem findTargetUnit_eq_find (cx : Ctx) (p : List String) (a b : Nat)
    (rest : List Nat) (h : candidatesOf cx p = a :: b :: rest) :
    findTargetUnit cx p =
      match (a :: b :: rest).find? (fun i => isLibIdx cx i) with
      | some u => .ok u
      | none => .error .noLibTarget := by
  simp only [findTargetUnit, h]

/-- The pair rendered for a feature determines the feature. -/
theorem featurePair_injective : Function.Injective featurePair := by
  intro a b h
  simp only [featurePair, List.cons.injEq, and_true, true_and] at h
  have hd := congrArg String.data h
  simp only [String.data_append] at hd
  exact String.ext (List.append_cancel_left (List.append_cancel_right hd))

/-! ### Evaluations on the concrete instances -/

theorem demo_allUnits : allUnits demoCtx = [0, 1] := by
  simp [allUnits, collectUnits_eq, demoCtx]

theorem demo_candidates : candidatesOf demoCtx demoPath = [0, 1] := by
  simp only [candidatesOf, demo_allUnits]
  decide

theorem demo_find : findTargetUnit demoCtx demoPath = .ok 0 := by
  simp only [findTargetUnit, demo_candidates]
  decide

theorem demo_synth : synthesize demoState demoPath = .ok (demoFlags, demoM) := by
  have h := demo_find
  simp only [synthesize, demoState]
  rw [h]
  simp only [demoCtx, demoLibUnit, demoBinUnit, buildScriptEnv, reduceIte,
    Step.ok.injEq, Prod.mk.injEq]
  constructor <;> rfl

theorem solo_allUnits : allUnits soloCtx = [0] := by
  simp [allUnits, collectUnits_eq, soloCtx]

theorem solo_cand_in : candidatesOf soloCtx demoPath = [0] := by
  simp only [candidatesOf, solo_allUnits]
  decide

theorem solo_cand_out : candidatesOf soloCtx ["q", "x.rs"] = [] := by
  simp only [candidatesOf, solo_allUnits]
  decide

theorem twoLib_allUnits : allUnits twoLibCtx = [0, 1] := by
  simp [allUnits, collectUnits_eq, twoLibCtx]

theorem twoLib_candidates : candidatesOf twoLibCtx demoPath = [0, 1] := by
  simp only [candidatesOf, twoLib_allUnits]
  decide

theorem bs_allUnits : allUnits bsCtx = [0] := by
  simp [allUnits, collectUnits_eq, bsCtx]

theorem bs_candidates : candidatesOf bsCtx demoPath = [0] := by
  simp only [candidatesOf, bs_allUnits]
  decide

theorem bs_find : findTargetUnit bsCtx demoPath = .ok 0 := by
  simp only [findTargetUnit, bs_candidates]

theorem bsNoOutput_allUnits : allUnits bsNoOutputCtx = [0] := by
  simp [allUnits, collectUnits_eq, bsNoOutputCtx]

theorem bsNoOutput_candidates : candidatesOf bsNoOutputCtx demoPath = [0] := by
  simp only [candidatesOf, bsNoOutput_allUnits]
  decide

theorem bsNoOutput_find : findTargetUnit bsNoOutputCtx demoPath = .ok 0 := by
  simp only [findTargetUnit, bsNoOutput_candidates]

/-! ### Claim theorems -/

/-- Claim C4: a unit is a candidate exactly when the parent directory of its
declared source-root file is an ancestor (inclusive of equality) of the
requested path (some suffix extends that directory to the path); with zero
candidates the locator fails with the unit-not-found error, and with exactly
one candidate it returns that unit. -/
theorem C4_locator_candidates_and_arity (cx : Ctx) (p : List String) :
    (∀ i, i ∈ candidatesOf cx p ↔
       (i ∈ allUnits cx ∧
        ∃ d t, parentDir (cx.unitOf i).target.srcPath = some d ∧ p = d ++ t))
    ∧ (candidatesOf cx p = [] →
        findTargetUnit cx p = .error (.unitNotFound (renderPath p)))
    ∧ (∀ u, candidatesOf cx p = [u] → findTargetUnit cx p = .ok u) := by
  refine ⟨?_, ?_, ?_⟩
  · intro i
    simp only [candidatesOf, List.mem_filter]
    rw [isCandidate_iff]
  · intro h
    simp only [findTargetUnit, h]
  · intro u h
    simp only [findTargetUnit, h]

/-- Witness for C4 at `soloCtx`: a path inside the single library's source
tree resolves to that unit; a path outside every source root is the
unit-not-found error. -/
theorem C4_witness :
    findTargetUnit soloCtx demoPath = .ok 0 ∧
    findTargetUnit soloCtx ["q", "x.rs"] =
      .error (.unitNotFound (renderPath ["q", "x.rs"])) :=
  ⟨(C4_locator_candidates_and_arity soloCtx demoPath).2.2 0 solo_cand_in,
   (C4_locator_candidates_and_arity soloCtx ["q", "x.rs"]).2.1 solo_cand_out⟩

/-- Claim C3: with two or more candidates, if exactly one candidate has the
`lib` crate type then the locator returns it, wherever it sits in the
enumeration (the statement quantifies over every context, hence over every
enumeration order); if no candidate has the `lib` crate type the locator
fails with the ambiguity error. -/
theorem C3_locator_prefers_unique_lib (cx : Ctx) (p : List String)
    (ms : List Nat) (u0 : Nat)
    (hms : candidatesOf cx p = ms) (hlen : 2 ≤ ms.length) :
    (u0 ∈ ms → isLibIdx cx u0 = true →
       (∀ v ∈ ms, isLibIdx cx v = true → v = u0) →
       findTargetUnit cx p = .ok u0)
    ∧ ((∀ v ∈ ms, isLibIdx cx v = false) →
        findTargetUnit cx p = .error .noLibTarget) := by
  obtain ⟨a, b, rest, rfl⟩ := exists_cons_cons_of_two_le hlen
  have hred := findTargetUnit_eq_find cx p a b rest hms
  constructor
  · intro hmem hlib huniq
    have hsome : ((a :: b :: rest).find? (fun i => isLibIdx cx i)).isSome := by
      rw [List.find?_isSome]
      exact ⟨u0, hmem, hlib⟩
    obtain ⟨w, hw⟩ := Option.isSome_iff_exists.1 hsome
    have hwmem := List.mem_of_find?_eq_some hw
    have hwlib := List.find?_some hw
    rw [hred, hw, huniq w hwmem hwlib]
  · intro hall
    have hnone : (a :: b :: rest).find? (fun i => isLibIdx cx i) = none := by
      rw [List.find?_eq_none]
      intro x hx
      simp [hall x hx]
    rw [hred, hnone]

/-- Witness for C3 at `demoCtx`: candidates `[0, 1]` (library and binary
sharing `r/src`), only unit 0 is a library, and the locator returns it. -/
theorem C3_witness : findTargetUnit demoCtx demoPath = .ok 0 :=
  (C3_locator_prefers_unique_lib demoCtx demoPath [0, 1] 0 demo_candidates
    (by decide)).1 (by decide) (by decide) (by decide)

/-- Claim C10: with two or more candidates of which several may have the
`lib` crate type, the locator returns the first `lib` candidate in
enumeration order (it does not report an ambiguity). -/
theorem C10_locator_first_lib_in_order (cx : Ctx) (p : List String)
    (l1 : List Nat) (u : Nat) (l2 : List Nat)
    (hms : candidatesOf cx p = l1 ++ u :: l2)
    (hlen : 2 ≤ (l1 ++ u :: l2).length)
    (hl1 : ∀ v ∈ l1, isLibIdx cx v = false)
    (hu : isLibIdx cx u = true) :
    findTargetUnit cx p = .ok u := by
  obtain ⟨a, b, rest, hshape⟩ := exists_cons_cons_of_two_le hlen
  have hred := findTargetUnit_eq_find cx p a b rest (hms.trans hshape)
  rw [hred, ← hshape]
  have h1 : l1.find? (fun i => isLibIdx cx i) = none := by
    rw [List.find?_eq_none]
    intro x hx
    simp [hl1 x hx]
  rw [List.find?_append, h1, List.find?_cons_of_pos _ (by simp [hu])]
  rfl

/-- Witness for C10 at `twoLibCtx`: both candidates are libraries; the
first one in collection order (unit 0) is selected. -/
theorem C10_witness : findTargetUnit twoLibCtx demoPath = .ok 0 :=
  C10_locator_first_lib_in_order twoLibCtx demoPath [] 0 [1]
    (by simp [twoLib_candidates]) (by decide) (by decide) (by decide)

/-- Claim C6: unit collection from the build roots terminates (in this
embedding `collectUnits` is a total function, well-founded by the DAG
invariant of `Ctx`, even when a unit is reachable along several dependency
paths); it contains every unit reachable from a root, only units reachable
from a root, and wherever a unit occurs in the produced order all its
dependencies occur strictly before it. -/
theorem C6_collect_units_complete_and_ordered (cx : Ctx) :
    (∀ r k, r ∈ cx.roots → Reaches cx r k → k ∈ allUnits cx)
    ∧ (∀ k, k ∈ allUnits cx → ∃ r ∈ cx.roots, Reaches cx r k)
    ∧ DepsBefore cx.deps (allUnits cx) := by
  refine ⟨?_, ?_, ?_⟩
  · intro r k hr hrk
    exact List.mem_flatten_of_mem (List.mem_map_of_mem _ hr)
      (mem_collectUnits_of_reaches hrk)
  · intro k hk
    rcases List.mem_flatten.1 hk with ⟨l, hl, hkl⟩
    rcases List.mem_map.1 hl with ⟨r, hr, rfl⟩
    exact ⟨r, hr, reaches_of_mem_collectUnits hkl⟩
  · apply depsBefore_flatten
    intro l hl
    rcases List.mem_map.1 hl with ⟨r, _, rfl⟩
    exact depsBefore_collectUnits cx r

/-- Witness for C6 at `diamondCtx` (unit 0 reachable along two paths from
root 3): unit 0 is collected, and the produced order is
dependency-closed. -/
theorem C6_witness :
    0 ∈ allUnits diamondCtx ∧ DepsBefore diamondCtx.deps (allUnits diamondCtx) :=
  ⟨(C6_collect_units_complete_and_ordered diamondCtx).1 3 0 (by decide)
     (Reaches.step 3 1 0 (by decide) (Reaches.step 1 0 0 (by decide) (Reaches.refl 0))),
   (C6_collect_units_complete_and_ordered diamondCtx).2.2⟩

/-- Claim C5: the returned flag sequence begins with, in this exact order
and each exactly once: the program-name placeholder, the unit-name flag with
the target's crate name, the output-kind flag with the first declared crate
type, the sysroot flag (the trimmed sysroot query answer), the unit's
source-root file path (fixed by the unit, independent of which file inside
it was requested), the edition flag, the dependency search-path flag, and
the emit-metadata-and-dep-info-only flag. -/
theorem C5_flag_sequence_head (s : ProjectState) (p : List String)
    (ti : Nat) (ty : String) (tys : List String) (fl : List String)
    (hT : findTargetUnit s.ctx p = .ok ti)
    (hct : (s.ctx.unitOf ti).target.crateTypes = ty :: tys)
    (h : (synthesize s p).getFlags = some fl) :
    fl.take 12 =
      ["rustc",
       "--crate-name", (s.ctx.unitOf ti).target.crateName,
       "--crate-type", ty,
       "--sysroot", strTrim (s.sysrootOf ((s.processEnv "RUSTC").getD "rustc")),
       renderPath (s.ctx.unitOf ti).target.srcPath,
       "--edition=" ++ (s.ctx.unitOf ti).target.edition,
       "-L", renderPath (s.ctx.layoutDepsDir (s.ctx.unitOf ti).kind),
       "--emit=dep-info,metadata"] := by
  simp only [synthesize, hT, hct] at h
  cases hx : s.ctx.externArgs ti with
  | none => rw [hx] at h; simp [Step.getFlags] at h
  | some ext =>
    rw [hx] at h
    cases hbs : buildScriptEnv s.ctx ti (envOfPairs (basePairs s (s.ctx.unitOf ti))) with
    | error e => rw [hbs] at h; simp [Step.getFlags] at h
    | panicked msg => rw [hbs] at h; simp [Step.getFlags] at h
    | ok m =>
      rw [hbs] at h
      simp only [Step.getFlags, Option.some.injEq] at h
      rw [← h, List.append_assoc]
      exact List.take_left' rfl

/-- Witness for C5 at `demoState`: the first 12 flags are exactly the fixed
head. -/
theorem C5_witness :
    demoFlags.take 12 =
      ["rustc",
       "--crate-name", (demoState.ctx.unitOf 0).target.crateName,
       "--crate-type", "lib",
       "--sysroot",
       strTrim (demoState.sysrootOf ((demoState.processEnv "RUSTC").getD "rustc")),
       renderPath (demoState.ctx.unitOf 0).target.srcPath,
       "--edition=" ++ (demoState.ctx.unitOf 0).target.edition,
       "-L", renderPath (demoState.ctx.layoutDepsDir (demoState.ctx.unitOf 0).kind),
       "--emit=dep-info,metadata"] :=
  C5_flag_sequence_head demoState demoPath 0 "lib" [] demoFlags demo_find
    (by decide) (by rw [demo_synth]; rfl)

/-- Extracting the middle block of a three-part concatenation. -/
theorem take_drop_middle {α : Type} (A B C : List α) (n : Nat) (hA : A.length = n) :
    ((A ++ B ++ C).drop n).take B.length = B := by
  subst hA
  rw [List.append_assoc, List.drop_left, List.take_left]

/-- Counting a feature's rendered pair among the rendered pairs of a
duplicate-free feature list: one when enabled, zero otherwise. -/
theorem count_featurePair (l : List String) (f : String) (hnd : l.Nodup) :
    (l.map featurePair).count (featurePair f) = if f ∈ l then 1 else 0 := by
  induction l with
  | nil => simp
  | cons a l ih =>
    rw [List.nodup_cons] at hnd
    obtain ⟨ha, hl⟩ := hnd
    simp only [List.map_cons, List.count_cons, ih hl, List.mem_cons, beq_iff_eq,
      featurePair_injective.eq_iff]
    by_cases h1 : f = a <;> by_cases h2 : f ∈ l <;> simp_all <;>
      exact fun h => h1 h.symm

/-- Claim C7: immediately after the 12 fixed head flags, the flag sequence
carries exactly the conditional-compilation pairs of the enabled features,
one `["--cfg", "feature=\"<name>\""]` pair per feature; with a
duplicate-free feature set, the pair of a feature occurs once exactly when
the feature is enabled and never otherwise. -/
theorem C7_feature_flag_pairs (s : ProjectState) (p : List String)
    (ti : Nat) (ty : String) (tys : List String) (fl : List String) (f : String)
    (hT : findTargetUnit s.ctx p = .ok ti)
    (hct : (s.ctx.unitOf ti).target.crateTypes = ty :: tys)
    (h : (synthesize s p).getFlags = some fl)
    (hnd : (s.ctx.unitOf ti).features.Nodup) :
    ((fl.drop 12).take (((s.ctx.unitOf ti).features.map featurePair).flatten.length)
       = ((s.ctx.unitOf ti).features.map featurePair).flatten)
    ∧ ((s.ctx.unitOf ti).features.map featurePair).count (featurePair f) =
        (if f ∈ (s.ctx.unitOf ti).features then 1 else 0) := by
  constructor
  · simp only [synthesize, hT, hct] at h
    cases hx : s.ctx.externArgs ti with
    | none => rw [hx] at h; simp [Step.getFlags] at h
    | some ext =>
      rw [hx] at h
      cases hbs : buildScriptEnv s.ctx ti (envOfPairs (basePairs s (s.ctx.unitOf ti))) with
      | error e => rw [hbs] at h; simp [Step.getFlags] at h
      | panicked msg => rw [hbs] at h; simp [Step.getFlags] at h
      | ok m =>
        rw [hbs] at h
        simp only [Step.getFlags, Option.some.injEq] at h
        rw [← h]
        exact take_drop_middle _ _ _ 12 rfl
  · exact count_featurePair _ f hnd

/-- Witness for C7 at `demoState` (feature set `["extra"]`): the feature
section follows the fixed head, and the `extra` pair occurs once. -/
theorem C7_witness :
    ((demoFlags.drop 12).take
        (((demoState.ctx.unitOf 0).features.map featurePair).flatten.length)
       = ((demoState.ctx.unitOf 0).features.map featurePair).flatten)
    ∧ ((demoState.ctx.unitOf 0).features.map featurePair).count (featurePair "extra") =
        (if "extra" ∈ (demoState.ctx.unitOf 0).features then 1 else 0) :=
  C7_feature_flag_pairs demoState demoPath 0 "lib" [] demoFlags "extra" demo_find
    (by decide) (by rw [demo_synth]; rfl) (by decide)

/-- Claim C8: the assembled environment mapping contains the unit's package
version, its major/minor/patch components, the package name and the
manifest's directory; when a build-script result is recorded, `OUT_DIR` and
every emitted pair are merged in, and on key conflicts the build script's
(last) binding wins over the base set. -/
theorem C8_environment_assembly (s : ProjectState) (p : List String)
    (ti : Nat) (ty : String) (tys : List String) (ext : List String)
    (hT : findTargetUnit s.ctx p = .ok ti)
    (hct : (s.ctx.unitOf ti).target.crateTypes = ty :: tys)
    (hx : s.ctx.externArgs ti = some ext) :
    (s.ctx.buildScriptMeta ti = none →
       ((synthesize s p).envAt "CARGO_PKG_VERSION"
            = some (s.ctx.unitOf ti).pkg.version.render ∧
        (synthesize s p).envAt "CARGO_PKG_NAME" = some (s.ctx.unitOf ti).pkg.name ∧
        (synthesize s p).envAt "CARGO_MANIFEST_DIR" = some (renderPath s.manifestDir) ∧
        (synthesize s p).envAt "CARGO_PKG_VERSION_MAJOR"
            = some (toString (s.ctx.unitOf ti).pkg.version.major) ∧
        (synthesize s p).envAt "CARGO_PKG_VERSION_MINOR"
            = some (toString (s.ctx.unitOf ti).pkg.version.minor) ∧
        (synthesize s p).envAt "CARGO_PKG_VERSION_PATCH"
            = some (toString (s.ctx.unitOf ti).pkg.version.patch)))
    ∧ (∀ meta bu out, s.ctx.buildScriptMeta ti = some meta →
         s.ctx.buildScriptUnit ti = some bu →
         s.ctx.buildScriptExecOk bu = true →
         s.ctx.buildScriptOutputs meta = some out →
         ∀ k, (synthesize s p).envAt k =
           ((lookupLast out.env k).or
             (if k = "OUT_DIR" then some (renderPath (s.ctx.buildScriptOutDir bu))
              else lookupLast (basePairs s (s.ctx.unitOf ti)) k))) := by
  constructor
  · intro h0
    simp only [synthesize, hT, hct, hx, buildScriptEnv, h0, Step.envAt]
    refine ⟨?_, ?_, ?_, ?_, ?_, ?_⟩ <;>
      simp [envOfPairs_eq, lookupLast, basePairs]
  · intro meta bu out h1 h2 h3 h4 k
    simp only [synthesize, hT, hct, hx, buildScriptEnv, h1, h2, h3, if_true,
      reduceIte, h4, Step.envAt]
    rw [foldl_insertEnv_eq]
    congr 1
    simp only [insertEnv]
    by_cases hk : k = "OUT_DIR"
    · simp [hk]
    · simp [hk, envOfPairs_eq]

/-- Witness for C8 at `bsState`: the merged environment at the key the
build script shadows is given by the merge formula. -/
theorem C8_witness :
    (synthesize bsState demoPath).envAt "CARGO_PKG_NAME" =
      ((lookupLast bsOutput.env "CARGO_PKG_NAME").or
        (if ("CARGO_PKG_NAME" : String) = "OUT_DIR"
         then some (renderPath (bsState.ctx.buildScriptOutDir 7))
         else lookupLast (basePairs bsState (bsState.ctx.unitOf 0)) "CARGO_PKG_NAME")) :=
  (C8_environment_assembly bsState demoPath 0 "lib" [] [] bs_find (by decide) rfl).2
    0 7 bsOutput rfl rfl rfl rfl "CARGO_PKG_NAME"

/-- Claim C9: with an unchanged project state (same context, sysroot query
and manifest), a second call right after a first successful one — i.e. on
the process environment as the first call left it — synthesizes the
identical flag sequence and the identical environment map.  The
`m "RUSTC" = none` hypothesis spells out "unchanged project state": the
only process-environment binding the function reads is `RUSTC`, and the
assembled environment (which the first call wrote into the process
environment) must not rebind it. -/
theorem C9_idempotent_given_unchanged_state (s : ProjectState)
    (p fl : List String) (m : String → Option String)
    (h : synthesize s p = .ok (fl, m)) (hR : m "RUSTC" = none) :
    synthesize { s with processEnv := overrideEnv m s.processEnv } p
      = .ok (fl, m) := by
  have hE : ({ s with processEnv := overrideEnv m s.processEnv } :
      ProjectState).processEnv "RUSTC" = s.processEnv "RUSTC" := by
    simp [overrideEnv, hR]
  rw [synthesize_frame _ s p hE rfl rfl rfl]
  exact h

/-- Witness for C9 at `demoState`: the second call on the mutated process
environment returns the same flags and map. -/
theorem C9_witness :
    synthesize { demoState with processEnv := overrideEnv demoM demoState.processEnv }
      demoPath = .ok (demoFlags, demoM) :=
  C9_idempotent_given_unchanged_state demoState demoPath demoFlags demoM
    demo_synth (by decide)

/-- Claim C2 counterexample: `generate_rustc_flags` does NOT leave the
calling process's environment unchanged.  On the concrete demo project the
call succeeds and afterwards the process environment binds
`CARGO_PKG_NAME`, which was unbound before the call (the `env::set_var`
loop of lib.rs:179-181 applied the assembled map to the process
environment; the map itself is not part of the return value). -/
theorem C2_counterexample :
    (genRustcFlags demoState demoPath).isOk = true ∧
    (genRustcFlags demoState demoPath).envAt "CARGO_PKG_NAME" = some "demo" ∧
    demoState.processEnv "CARGO_PKG_NAME" = none := by
  refine ⟨?_, ?_, rfl⟩
  · simp only [genRustcFlags, demo_synth]
    rfl
  · simp only [genRustcFlags, demo_synth, Step.envAt]
    decide

/-- Claim C2, amended: on success `generate_rustc_flags` returns only the
ordered flag sequence; the assembled environment mapping is not returned
but applied to the calling process's environment, whose post-call value at
a key is the assembled binding when one exists and the pre-call value
otherwise. -/
theorem C2_flags_returned_env_applied (s : ProjectState) (p fl : List String)
    (m : String → Option String) (k : String)
    (h : synthesize s p = .ok (fl, m)) (hk : m k = none) :
    genRustcFlags s p = .ok (fl, overrideEnv m s.processEnv) ∧
    overrideEnv m s.processEnv k = s.processEnv k := by
  constructor
  · simp only [genRustcFlags, h]
  · simp [overrideEnv, hk]

/-- Witness for C2 (amended) at `demoState`, key `PATH` (unbound in the
assembled map, hence untouched). -/
theorem C2_witness :
    genRustcFlags demoState demoPath
        = .ok (demoFlags, overrideEnv demoM demoState.processEnv) ∧
    overrideEnv demoM demoState.processEnv "PATH" = demoState.processEnv "PATH" :=
  C2_flags_returned_env_applied demoState demoPath demoFlags demoM "PATH"
    demo_synth (by decide)

/-- Claim C1, failing input: a unit whose build-script step has metadata
(so the build-script branch is taken) but for whose metadata key no output
is recorded.  The code does not degrade to "no additional environment": the
`cx.build_script_outputs...get(target_meta).unwrap()` call of lib.rs:175
panics. -/
theorem C1_missing_build_script_output_panics :
    bsNoOutputState.ctx.buildScriptMeta 0 = some 0 ∧
    bsNoOutputState.ctx.buildScriptOutputs 0 = none ∧
    (genRustcFlags bsNoOutputState demoPath).isPanic = true := by
  refine ⟨rfl, rfl, ?_⟩
  have h := bsNoOutput_find
  simp only [genRustcFlags, synthesize, bsNoOutputState]
  rw [h]
  rfl

end GenRustcFlags
